import Mathlib

/-!
Verification development for the slide-deck generator (`src/app.py`).

The Python program is shallowly embedded here.  Python strings are modelled
as lists of characters (`PyStr`); Python's `str.split(sep)`, `str.strip()`,
`str.startswith` / `str.endswith` and `str.lower()` are re-implemented over
that model.  External collaborators (the text-generation service, the photo
search service, `json.loads`, file writes) are passed in as explicit
function parameters, so the embedded functions are pure and total; a Python
exception escaping a function is modelled by an `Except.error` result.
-/

/-- Python strings, modelled as lists of characters. -/
abbrev PyStr := List Char

/-- Convert a Lean string literal to the `PyStr` model. -/
def chars (s : String) : PyStr := s.data

/-- Whitespace characters stripped by Python's `str.strip()` (the subset
relevant to this program). -/
def isSpaceChar (c : Char) : Bool :=
  c = ' ' || c = '\t' || c = '\n' || c = '\r'

/-- Strip leading whitespace, as the leading half of Python `str.strip()`. -/
def stripLeft (s : PyStr) : PyStr := s.dropWhile isSpaceChar

/-- Strip trailing whitespace, as the trailing half of Python `str.strip()`. -/
def stripRight (s : PyStr) : PyStr := ((s.reverse).dropWhile isSpaceChar).reverse

/-- Python `str.strip()`. -/
def pyStrip (s : PyStr) : PyStr := stripRight (stripLeft s)

/-- Locate the leftmost occurrence of `sep` in `s`: returns the part before
the occurrence and the part after it, or `none` when `sep` does not occur.
This is the scanning step underlying Python `str.split(sep)`. -/
def findSplit (sep : PyStr) : PyStr → Option (PyStr × PyStr)
  | [] => none
  | c :: rest =>
    if sep.isPrefixOf (c :: rest) then some ([], (c :: rest).drop sep.length)
    else
      match findSplit sep rest with
      | some (pre, post) => some (c :: pre, post)
      | none => none

/-- Fuel-driven worker for `pySplit`; the fuel only has to exceed the length
of the scanned string, which `pySplit` guarantees. -/
def pySplitAux : Nat → PyStr → PyStr → List PyStr
  | 0, _, s => [s]
  | fuel + 1, sep, s =>
    match findSplit sep s with
    | none => [s]
    | some (pre, post) => pre :: pySplitAux fuel sep post

/-- Python `s.split(sep)` for a non-empty separator `sep`. -/
def pySplit (sep s : PyStr) : List PyStr := pySplitAux (s.length + 1) sep s

/-- Python `sep in s` (substring membership), as the source expresses it
through `split`: `s.split(sep)` has more than one part. -/
def pyContains (sep s : PyStr) : Bool := (findSplit sep s).isSome

/-- Python `s.startswith(p)`. -/
def pyStartsWith (s p : PyStr) : Bool := p.isPrefixOf s

/-- Python `s.endswith(p)`. -/
def pyEndsWith (s p : PyStr) : Bool := p.isSuffixOf s

/-- ASCII lower-casing of one character, as Python `str.lower()` acts on the
characters this program compares (`slide_type` tags are ASCII). -/
def lowerChar (c : Char) : Char :=
  if c = 'A' then 'a' else if c = 'B' then 'b' else if c = 'C' then 'c'
  else if c = 'D' then 'd' else if c = 'E' then 'e' else if c = 'F' then 'f'
  else if c = 'G' then 'g' else if c = 'H' then 'h' else if c = 'I' then 'i'
  else if c = 'J' then 'j' else if c = 'K' then 'k' else if c = 'L' then 'l'
  else if c = 'M' then 'm' else if c = 'N' then 'n' else if c = 'O' then 'o'
  else if c = 'P' then 'p' else if c = 'Q' then 'q' else if c = 'R' then 'r'
  else if c = 'S' then 's' else if c = 'T' then 't' else if c = 'U' then 'u'
  else if c = 'V' then 'v' else if c = 'W' then 'w' else if c = 'X' then 'x'
  else if c = 'Y' then 'y' else if c = 'Z' then 'z' else c

/-- Python `s.lower()`. -/
def pyLower (s : PyStr) : PyStr := s.map lowerChar

/-- JSON values, the result type of the modelled `json.loads`. -/
inductive JValue where
  | jnull : JValue
  | jbool : Bool → JValue
  | jnum : Int → JValue
  | jstr : PyStr → JValue
  | jarr : List JValue → JValue
  | jobj : List (PyStr × JValue) → JValue

/-- Code-fence stripping, exactly as `generate_content_outline` performs it
(src/app.py lines 39-42): if three backticks followed by the word json occur
in the text, take what stands between that marker and the next fence and
strip it; otherwise if a plain fence occurs, take what follows the first
fence up to the next one and strip it; otherwise leave the text unchanged. -/
def stripFences (content : PyStr) : PyStr :=
  if (pySplit (chars "```json") content).length > 1 then
    pyStrip ((pySplit (chars "```")
      ((pySplit (chars "```json") content).getD 1 [])).getD 0 [])
  else if (pySplit (chars "```") content).length > 1 then
    pyStrip ((pySplit (chars "```") content).getD 1 [])
  else content

/-- Embedding of `PPTGenerator.generate_content_outline` (src/app.py lines 36-55), with
the text-generation response and `json.loads` passed in explicitly.  A
raised exception anywhere in the `try` block — a failing model call
(`resp = Except.error`) or a `json.loads` failure — yields `none`. -/
def generate_content_outline (loads : PyStr → Except PyStr JValue)
    (resp : Except PyStr PyStr) : Option JValue :=
  match resp with
  | .error _ => none
  | .ok text =>
    let content := stripFences (pyStrip text)
    if !(pyStartsWith content (chars "[")) || !(pyEndsWith content (chars "]")) then
      none
    else
      match loads content with
      | .ok v => some v
      | .error _ => none

/-- Embedding of `PPTGenerator.generate_image_description` (src/app.py lines 57-69), with
the vision-model response passed in explicitly.  On success the trimmed
response text is returned; any raised exception is replaced by the fixed
fallback query. -/
def generate_image_description (resp : Except PyStr PyStr) : PyStr :=
  match resp with
  | .ok text => pyStrip text
  | .error _ => chars "abstract technology background"

/-- One photo record of the search response; only `src.original` is read. -/
structure PexelsPhoto where
  src_original : PyStr
deriving DecidableEq

/-- The decoded JSON body of the search response; `photos` is `none` when
the key is absent and `some l` when it maps to the list `l`, matching
`data.get("photos")`. -/
structure PexelsData where
  photos : Option (List PexelsPhoto)
deriving DecidableEq

/-- External collaborators of `download_image`: the environment variable
`PEXELS_API_KEY`, the search GET (already composed with
`raise_for_status` and `.json()`, so an HTTP error is `Except.error`), and
the image GET returning raw bytes. -/
structure PexelsEnv where
  apiKey : Option PyStr
  search : PyStr → Except PyStr PexelsData
  fetchImage : PyStr → Except PyStr (List Nat)

/-- Embedding of `PPTGenerator.download_image` (src/app.py lines 71-101).  Returns the
save path on success and `none` on every handled failure: falsy API key,
search-request error, absent or empty `photos` list, or image-request
error.  The temporary-file write is out of scope and modelled as always
succeeding. -/
def download_image (env : PexelsEnv) (query : PyStr)
    (save_path : PyStr := chars "temp_img.jpg") : Option PyStr :=
  match env.apiKey with
  | none => none
  | some key =>
    if key = [] then none
    else
      match env.search query with
      | .error _ => none
      | .ok data =>
        match data.photos with
        | none => none
        | some [] => none
        | some (p :: _) =>
          match env.fetchImage p.src_original with
          | .error _ => none
          | .ok _ => some save_path

/-- One element of the parsed outline, as a Python dict with the three keys
the program reads; `none` models an absent key. -/
structure SlideDict where
  title : Option PyStr
  content : Option PyStr
  slide_type : Option PyStr
deriving DecidableEq

/-- A SlideSpec proper: all three fields present, as the spec's data model
describes an outline element. -/
def SlideDict.isFull (d : SlideDict) : Prop :=
  d.title.isSome ∧ d.content.isSome ∧ d.slide_type.isSome

instance (d : SlideDict) : Decidable d.isFull := by
  unfold SlideDict.isFull
  infer_instance

/-- One emitted slide of the deck.  `titleSlide` records the subtitle only
when the renderer sets one (Python skips the placeholder for a falsy
subtitle); the `image` field of the other two records the path of the
picture placed on the slide, or `none` when no picture was placed. -/
inductive Slide where
  | titleSlide : PyStr → Option PyStr → Slide
  | contentSlide : PyStr → PyStr → Option PyStr → Slide
  | imageSlide : PyStr → PyStr → Option PyStr → Slide
deriving DecidableEq

/-- Network side effects a slide renderer performs: a vision-model request
for an image description, and a photo download attempt for a query. -/
inductive Event where
  | descRequest : PyStr → Event
  | imgDownload : PyStr → Event
deriving DecidableEq

/-- External collaborators of the deck build: the vision model (mapping the
prompt's slide content to a response) and the photo service. -/
structure DeckEnv where
  vision : PyStr → Except PyStr PyStr
  pexels : PexelsEnv

/-- Embedding of `PPTGenerator.create_title_slide` (src/app.py lines 103-121): emits one
title slide; the subtitle placeholder is only filled when `subtitle` is
truthy (non-empty). -/
def create_title_slide (title subtitle : PyStr) : Slide :=
  Slide.titleSlide title (if subtitle = [] then none else some subtitle)

/-- Embedding of `PPTGenerator.create_content_slide` (src/app.py lines 123-153): emits
one content slide; with `include_image` it asks the vision model for an
image description, attempts the download, and places the picture when the
download succeeded.  The returned event list records the attempts made. -/
def create_content_slide (env : DeckEnv) (title content : PyStr)
    (include_image : Bool) : Slide × List Event :=
  if include_image then
    let image_desc := generate_image_description (env.vision content)
    let img_path := download_image env.pexels image_desc (chars "temp_img.jpg")
    (Slide.contentSlide title content img_path,
      [Event.descRequest content, Event.imgDownload image_desc])
  else
    (Slide.contentSlide title content none, [])

/-- Embedding of `PPTGenerator.create_image_slide` (src/app.py lines 156-182): emits one
image slide, attempting a download for the given query. -/
def create_image_slide (env : DeckEnv) (title content img_query : PyStr) :
    Slide × List Event :=
  (Slide.imageSlide title content
      (download_image env.pexels img_query (chars "temp_img.jpg")),
    [Event.imgDownload img_query])

/-- The loop body of `generate_presentation` (src/app.py lines 195-211):
read the three keys with their defaults, lower-case the slide type and
dispatch to a renderer.  Unrecognized types fall to the final `else`, the
content renderer with `include_image=True`. -/
def render_slide (env : DeckEnv) (slide_info : SlideDict) : Slide × List Event :=
  let slide_type := pyLower (slide_info.slide_type.getD (chars "content"))
  let title := slide_info.title.getD []
  let content := slide_info.content.getD []
  if slide_type = chars "title" then
    (create_title_slide title content, [])
  else if slide_type = chars "image" then
    let img_query := generate_image_description (env.vision content)
    let r := create_image_slide env title content img_query
    (r.1, Event.descRequest content :: r.2)
  else if slide_type = chars "conclusion" then
    create_content_slide env title content false
  else
    create_content_slide env title content true

/-- Embedding of `PPTGenerator.generate_presentation` (src/app.py lines 184-215), with
the result of the outline step (`self.generate_content_outline`) passed in
explicitly as an optional list of dicts — the shape the claims quantify
over.  `not outline or len(outline) < 1` is the empty / missing outline
check; passing it, the code indexes `outline[0]['title']` directly, so a
first element without a `'title'` key raises `KeyError`
(`Except.error`).  On completion the emitted deck, the per-slide event
lists for the looped slides, and the saved file path are returned. -/
def generate_presentation (env : DeckEnv) (outline : Option (List SlideDict))
    (output_file : PyStr) :
    Except PyStr (List Slide × List (List Event) × Option PyStr) :=
  match outline with
  | none => .ok ([], [], none)
  | some [] => .ok ([], [], none)
  | some (first :: rest) =>
    match first.title with
    | none => .error (chars "KeyError: title")
    | some t =>
      let head := create_title_slide t (first.content.getD [])
      let rendered := rest.map (render_slide env)
      .ok (head :: rendered.map Prod.fst, rendered.map Prod.snd,
        some output_file)

/-- A JSON value as it may appear for one of the three read keys of an
outline dict: `json.loads` can deliver numbers, booleans or null where the
prompt asked for strings. -/
inductive PyVal where
  | vstr : PyStr → PyVal
  | vnum : Int → PyVal
  | vbool : Bool → PyVal
  | vnull : PyVal
deriving DecidableEq

/-- Whether a value is a Python string. -/
def PyVal.isStr : PyVal → Bool
  | .vstr _ => true
  | _ => false

/-- Python truthiness of a value. -/
def PyVal.truthy : PyVal → Bool
  | .vstr s => !s.isEmpty
  | .vnum n => n != 0
  | .vbool b => b
  | .vnull => false

/-- Python `str()` of a value, as an f-string renders it. -/
def PyVal.pyToStr : PyVal → PyStr
  | .vstr s => s
  | .vnum n => if n < 0 then '-' :: Nat.toDigits 10 n.natAbs
               else Nat.toDigits 10 n.natAbs
  | .vbool true => chars "True"
  | .vbool false => chars "False"
  | .vnull => chars "None"

/-- Handing a value to a string-typed sink — a text assignment in the
presentation library (src/app.py lines 107, 117, 127, 160, 171) or the
string method `content.split` (line 137): succeeds for strings, raises for
any other value. -/
def PyVal.asStr : PyVal → Except PyStr PyStr
  | .vstr s => .ok s
  | _ => .error (chars "TypeError: expected a string")

/-- Python `value.lower()` as called at src/app.py line 196: a non-string
value has no `lower` attribute, so the call raises AttributeError. -/
def PyVal.lower : PyVal → Except PyStr PyStr
  | .vstr s => .ok (pyLower s)
  | _ => .error (chars "AttributeError: lower")

/-- An outline element exactly as `json.loads` delivers it: each of the
three keys the program reads is absent or holds an arbitrary value. -/
structure RawSlideDict where
  title : Option PyVal
  content : Option PyVal
  slide_type : Option PyVal
deriving DecidableEq

/-- All present values of the three read keys are strings; on this domain a
raw dict is exactly a `SlideDict`. -/
def RawSlideDict.stringValued (d : RawSlideDict) : Bool :=
  (match d.title with | none => true | some v => v.isStr) &&
  (match d.content with | none => true | some v => v.isStr) &&
  (match d.slide_type with | none => true | some v => v.isStr)

/-- The string-valued view of a raw dict (junk `[]` for values that are not
strings; only meaningful under `stringValued`). -/
def RawSlideDict.toSlideDict (d : RawSlideDict) : SlideDict :=
  SlideDict.mk
    (d.title.map (fun v => match v with | .vstr s => s | _ => []))
    (d.content.map (fun v => match v with | .vstr s => s | _ => []))
    (d.slide_type.map (fun v => match v with | .vstr s => s | _ => []))

/-- Embedding of `create_title_slide` over raw values: the title goes to a
text sink (src/app.py line 107) and, when truthy, the subtitle does too
(line 117); both raise on non-strings. -/
def create_title_slide_val (title subtitle : PyVal) : Except PyStr Slide :=
  match title.asStr with
  | .error e => .error e
  | .ok t =>
    if subtitle.truthy then
      match subtitle.asStr with
      | .error e => .error e
      | .ok sub => .ok (Slide.titleSlide t (some sub))
    else .ok (Slide.titleSlide t none)

/-- Embedding of `create_content_slide` over raw values: the title text
sink (src/app.py line 127), then `content.split` (line 137) — which raises
on a non-string whatever its truthiness — then the optional image fetch
(lines 143-145). -/
def create_content_slide_val (env : DeckEnv) (title content : PyVal)
    (include_image : Bool) : Except PyStr (Slide × List Event) :=
  match title.asStr with
  | .error e => .error e
  | .ok t =>
    match content.asStr with
    | .error e => .error e
    | .ok c =>
      if include_image then
        let image_desc := generate_image_description (env.vision c)
        let img_path := download_image env.pexels image_desc (chars "temp_img.jpg")
        .ok (Slide.contentSlide t c img_path,
          [Event.descRequest c, Event.imgDownload image_desc])
      else .ok (Slide.contentSlide t c none, [])

/-- Embedding of `create_image_slide` over raw values: the title sink
(src/app.py line 160), the caption sink only for truthy content
(lines 165-171), then the download attempt (line 175). -/
def create_image_slide_val (env : DeckEnv) (title content : PyVal)
    (img_query : PyStr) : Except PyStr (Slide × List Event) :=
  match title.asStr with
  | .error e => .error e
  | .ok t =>
    if content.truthy then
      match content.asStr with
      | .error e => .error e
      | .ok c =>
        .ok (Slide.imageSlide t c
            (download_image env.pexels img_query (chars "temp_img.jpg")),
          [Event.imgDownload img_query])
    else
      .ok (Slide.imageSlide t content.pyToStr
          (download_image env.pexels img_query (chars "temp_img.jpg")),
        [Event.imgDownload img_query])

/-- The loop body of `generate_presentation` over raw dicts: src/app.py
line 196 calls `.lower()` on the read slide_type value — AttributeError for
a non-string — then dispatches with the read title and content values,
whose string sinks raise inside the chosen renderer. -/
def render_slide_val (env : DeckEnv) (slide_info : RawSlideDict) :
    Except PyStr (Slide × List Event) :=
  match (slide_info.slide_type.getD (PyVal.vstr (chars "content"))).lower with
  | .error e => .error e
  | .ok slide_type =>
    let title := slide_info.title.getD (PyVal.vstr [])
    let content := slide_info.content.getD (PyVal.vstr [])
    if slide_type = chars "title" then
      (create_title_slide_val title content).map (fun s => (s, ([] : List Event)))
    else if slide_type = chars "image" then
      let img_query := generate_image_description (env.vision content.pyToStr)
      match create_image_slide_val env title content img_query with
      | .error e => .error e
      | .ok r => .ok (r.1, Event.descRequest content.pyToStr :: r.2)
    else if slide_type = chars "conclusion" then
      create_content_slide_val env title content false
    else
      create_content_slide_val env title content true

/-- Run the loop of `generate_presentation` over the remaining raw dicts,
stopping at the first raise. -/
def renderAll (env : DeckEnv) : List RawSlideDict →
    Except PyStr (List (Slide × List Event))
  | [] => .ok []
  | d :: ds =>
    match render_slide_val env d with
    | .error e => .error e
    | .ok r =>
      match renderAll env ds with
      | .error e => .error e
      | .ok rs => .ok (r :: rs)

/-- Embedding of `generate_presentation` over the outline exactly as
`json.loads` delivers it — a list of dicts whose three read keys hold
arbitrary values.  `outline[0]['title']` raises KeyError for a missing
key (src/app.py line 192) and every string sink raises on a non-string
value.  `generate_presentation` above is its restriction to string-valued
outlines. -/
def generate_presentation_val (env : DeckEnv)
    (outline : Option (List RawSlideDict)) (output_file : PyStr) :
    Except PyStr (List Slide × List (List Event) × Option PyStr) :=
  match outline with
  | none => .ok ([], [], none)
  | some [] => .ok ([], [], none)
  | some (first :: rest) =>
    match first.title with
    | none => .error (chars "KeyError: title")
    | some tval =>
      match create_title_slide_val tval (first.content.getD (PyVal.vstr [])) with
      | .error e => .error e
      | .ok headSlide =>
        match renderAll env rest with
        | .error e => .error e
        | .ok rendered =>
          .ok (headSlide :: rendered.map Prod.fst,
            rendered.map Prod.snd, some output_file)

/-- An outline text wrapped in a ```json code fence, the response shape the
prompt invites the model to produce. -/
def wrapFence (t : PyStr) : PyStr :=
  chars "```json" ++ ('\n' :: t) ++ ('\n' :: chars "```")

/-- A modelled `json.loads` for the concrete scenarios: it accepts exactly
the two texts those scenarios feed it, with the values the real parser
would produce, and reports a decode error otherwise. -/
def loadsSample : PyStr → Except PyStr JValue := fun s =>
  if s = chars "[2]" then .ok (JValue.jarr [JValue.jnum 2])
  else if s = chars "\x7b\"a\":1\x7d" then
    .ok (JValue.jobj [(chars "a", JValue.jnum 1)])
  else .error (chars "Expecting value")

/-- An outline text that is a valid JSON array yet contains a plain fence
inside one of its strings. -/
def tBad : PyStr := chars "[\"a\", \"``` [2] ```\"]"

/-- A deck environment whose network calls all fail (no API key, vision
model and HTTP requests erroring). -/
def envOffline : DeckEnv :=
  DeckEnv.mk (fun _ => Except.error (chars "network unreachable"))
    (PexelsEnv.mk none (fun _ => Except.error (chars "network unreachable"))
      (fun _ => Except.error (chars "network unreachable")))

/-- A photo environment with no API key configured. -/
def envNoKey : PexelsEnv :=
  PexelsEnv.mk none (fun _ => Except.error (chars "network unreachable"))
    (fun _ => Except.error (chars "network unreachable"))

/-- The three slides of the end-to-end Animal Kingdom scenario. -/
def animal1 : SlideDict :=
  SlideDict.mk (some (chars "Animal Kingdom")) (some (chars ""))
    (some (chars "title"))

def animal2 : SlideDict :=
  SlideDict.mk (some (chars "Mammals")) (some (chars "- Warm blooded\n- Fur"))
    (some (chars "content"))

def animal3 : SlideDict :=
  SlideDict.mk (some (chars "Summary")) (some (chars "- Diverse"))
    (some (chars "conclusion"))

/-- The Animal Kingdom outline of the end-to-end scenario. -/
def outlineAnimal : List SlideDict := [animal1, animal2, animal3]


section StringLemmas

/-- The function `stripRight` is `List.rdropWhile` of whitespace. -/
theorem stripRight_eq_rdropWhile (s : PyStr) :
    stripRight s = s.rdropWhile isSpaceChar := rfl

theorem findSplit_nil (sep : PyStr) : findSplit sep [] = none := rfl

/-- A found occurrence decomposes the scanned string. -/
theorem findSplit_decomp {sep s pre post : PyStr}
    (h : findSplit sep s = some (pre, post)) : s = pre ++ sep ++ post := by
  induction s generalizing pre post with
  | nil => simp [findSplit] at h
  | cons c rest ih =>
    rw [findSplit] at h
    by_cases hp : sep.isPrefixOf (c :: rest)
    · rw [if_pos hp] at h
      simp only [Option.some.injEq, Prod.mk.injEq] at h
      obtain ⟨h1, h2⟩ := h
      obtain ⟨u, hu⟩ := List.isPrefixOf_iff_prefix.mp hp
      subst h1; subst h2
      rw [← hu, List.nil_append, List.drop_left]
    · rw [if_neg hp] at h
      cases hf : findSplit sep rest with
      | none => rw [hf] at h; simp at h
      | some pp =>
        obtain ⟨pre', post'⟩ := pp
        rw [hf] at h
        simp only [Option.some.injEq, Prod.mk.injEq] at h
        obtain ⟨h1, h2⟩ := h
        subst h1; subst h2
        rw [List.cons_append, List.cons_append, ih hf]

/-- The piece before the leftmost occurrence holds no occurrence. -/
theorem findSplit_pre_none {sep s pre post : PyStr}
    (h : findSplit sep s = some (pre, post)) : findSplit sep pre = none := by
  induction s generalizing pre post with
  | nil => simp [findSplit] at h
  | cons c rest ih =>
    rw [findSplit] at h
    by_cases hp : sep.isPrefixOf (c :: rest)
    · rw [if_pos hp] at h
      simp only [Option.some.injEq, Prod.mk.injEq] at h
      obtain ⟨h1, _⟩ := h
      subst h1
      rfl
    · rw [if_neg hp] at h
      cases hf : findSplit sep rest with
      | none => rw [hf] at h; simp at h
      | some pp =>
        obtain ⟨pre', post'⟩ := pp
        rw [hf] at h
        simp only [Option.some.injEq, Prod.mk.injEq] at h
        obtain ⟨h1, _⟩ := h
        subst h1
        rw [findSplit]
        have hpre' : pre' <+: rest :=
          ⟨sep ++ post', by rw [← List.append_assoc, ← findSplit_decomp hf]⟩
        have hp2 : ¬ sep.isPrefixOf (c :: pre') := by
          intro hc
          exact hp ( List.isPrefixOf_iff_prefix.mpr
            (( List.isPrefixOf_iff_prefix.mp hc).trans
              ((List.prefix_cons_inj c).mpr hpre')))
        rw [if_neg hp2, ih hf]

/-- No occurrence found means the separator is not an infix. -/
theorem not_infix_of_findSplit_none {sep s : PyStr} (hsep : sep ≠ [])
    (h : findSplit sep s = none) : ¬ sep <:+: s := by
  induction s with
  | nil =>
    intro hinf
    obtain ⟨u, v, huv⟩ := hinf
    simp only [List.append_eq_nil] at huv
    exact hsep huv.1.2
  | cons c rest ih =>
    rw [findSplit] at h
    by_cases hp : sep.isPrefixOf (c :: rest)
    · rw [if_pos hp] at h; simp at h
    · rw [if_neg hp] at h
      cases hf : findSplit sep rest with
      | some pp => rw [hf] at h; simp at h
      | none =>
        intro hinf
        obtain ⟨u, v, huv⟩ := hinf
        cases u with
        | nil =>
          exact hp ( List.isPrefixOf_iff_prefix.mpr ⟨v, by simpa using huv⟩)
        | cons a u' =>
          rw [List.cons_append, List.cons_append] at huv
          injection huv with h1 h2
          exact ih hf ⟨u', v, h2⟩

/-- The scan `findSplit` misses exactly when the separator is not an infix. -/
theorem findSplit_eq_none_iff {sep s : PyStr} (hsep : sep ≠ []) :
    findSplit sep s = none ↔ ¬ sep <:+: s := by
  constructor
  · exact not_infix_of_findSplit_none hsep
  · intro h
    cases hf : findSplit sep s with
    | none => rfl
    | some pp =>
      obtain ⟨pre, post⟩ := pp
      exact absurd ⟨pre, post, (findSplit_decomp hf).symm⟩ h

end StringLemmas

section SplitLemmas

/-- A separator starting the scanned string is found at once. -/
theorem findSplit_self_append {sep : PyStr} (hsep : sep ≠ []) (u : PyStr) :
    findSplit sep (sep ++ u) = some ([], u) := by
  cases sep with
  | nil => exact absurd rfl hsep
  | cons s0 sep' =>
    rw [List.cons_append, findSplit]
    have hp : (s0 :: sep').isPrefixOf (s0 :: (sep' ++ u)) :=
      List.isPrefixOf_iff_prefix.mpr ⟨u, by rw [List.cons_append]⟩
    rw [if_pos hp, ← List.cons_append, List.drop_left]

/-- Scanning past a character that is not part of the separator. -/
theorem findSplit_cons_none {sep s : PyStr} {c : Char} (hsep : sep ≠ [])
    (hc : c ∉ sep) (h : findSplit sep s = none) :
    findSplit sep (c :: s) = none := by
  rw [findSplit]
  have hp : ¬ sep.isPrefixOf (c :: s) := by
    intro hpp
    obtain ⟨u, hu⟩ := List.isPrefixOf_iff_prefix.mp hpp
    cases sep with
    | nil => exact hsep rfl
    | cons s0 sep' =>
      rw [List.cons_append] at hu
      injection hu with h1 _
      exact hc (h1 ▸ List.mem_cons_self s0 sep')
  rw [if_neg hp, h]

/-- Scanning across a barrier character `c` that does not occur in the
separator: the first occurrence past the barrier is the first occurrence
of the remainder. -/
theorem findSplit_barrier {sep t : PyStr} {c : Char} (hsep : sep ≠ [])
    (hc : c ∉ sep) (h : findSplit sep t = none) (u : PyStr) :
    findSplit sep (t ++ c :: u) =
      (findSplit sep u).map (fun pp => (t ++ c :: pp.1, pp.2)) := by
  induction t with
  | nil =>
    rw [List.nil_append, findSplit]
    have hp : ¬ sep.isPrefixOf (c :: u) := by
      intro hpp
      obtain ⟨w, hw⟩ := List.isPrefixOf_iff_prefix.mp hpp
      cases sep with
      | nil => exact hsep rfl
      | cons s0 sep' =>
        rw [List.cons_append] at hw
        injection hw with h1 _
        exact hc (h1 ▸ List.mem_cons_self s0 sep')
    rw [if_neg hp]
    cases hf : findSplit sep u with
    | none => rfl
    | some pp => rfl
  | cons a t' ih =>
    rw [findSplit] at h
    by_cases hp : sep.isPrefixOf (a :: t')
    · rw [if_pos hp] at h; simp at h
    · rw [if_neg hp] at h
      cases hft : findSplit sep t' with
      | some pp => rw [hft] at h; simp at h
      | none =>
        rw [List.cons_append, findSplit]
        have hp2 : ¬ sep.isPrefixOf (a :: (t' ++ c :: u)) := by
          intro hpp
          have hpre : sep <+: (a :: t') ++ (c :: u) := by
            rw [List.cons_append]
            exact List.isPrefixOf_iff_prefix.mp hpp
          by_cases hlen : sep.length ≤ (a :: t').length
          · exact hp ( List.isPrefixOf_iff_prefix.mpr
              (List.prefix_of_prefix_length_le hpre (List.prefix_append _ _) hlen))
          · have htake := List.prefix_iff_eq_take.mp hpre
            rw [List.take_append_eq_append_take] at htake
            have hgap : 1 ≤ sep.length - (a :: t').length := by
              simp only [not_le] at hlen
              omega
            obtain ⟨k, hk⟩ := Nat.exists_eq_add_of_le hgap
            rw [hk] at htake
            have : c ∈ sep := by
              rw [htake]
              refine List.mem_append.mpr (Or.inr ?_)
              rw [Nat.add_comm 1 k, List.take_succ_cons]
              exact List.mem_cons_self c _
            exact hc this
        rw [if_neg hp2, ih hft]
        cases hf : findSplit sep u with
        | none => rfl
        | some pp =>
          obtain ⟨p1, p2⟩ := pp
          rfl

end SplitLemmas

section PieceLemmas

/-- With no occurrence, `split` returns the whole string as its one piece. -/
theorem pySplitAux_of_none {sep s : PyStr} (h : findSplit sep s = none) :
    ∀ fuel, pySplitAux fuel sep s = [s] := by
  intro fuel
  cases fuel with
  | zero => rfl
  | succ n => rw [pySplitAux, h]

/-- With no occurrence, `pySplit` returns the whole string as its one piece. -/
theorem pySplit_of_none {sep s : PyStr} (h : findSplit sep s = none) :
    pySplit sep s = [s] := pySplitAux_of_none h _

/-- With an occurrence, the split starts with the piece before it. -/
theorem pySplit_of_some {sep s pre post : PyStr}
    (h : findSplit sep s = some (pre, post)) :
    pySplit sep s = pre :: pySplitAux s.length sep post := by
  rw [pySplit, pySplitAux, h]

/-- The first piece of any split holds no occurrence of the separator. -/
theorem findSplit_pySplitAux_head {sep s : PyStr} {fuel : Nat} (hf : 1 ≤ fuel) :
    findSplit sep ((pySplitAux fuel sep s).getD 0 []) = none := by
  cases fuel with
  | zero => omega
  | succ n =>
    rw [pySplitAux]
    cases h : findSplit sep s with
    | none => exact h
    | some pp =>
      obtain ⟨pre, post⟩ := pp
      exact findSplit_pre_none h

/-- The first piece of `pySplit` holds no occurrence of the separator. -/
theorem findSplit_pySplit_head {sep s : PyStr} :
    findSplit sep ((pySplit sep s).getD 0 []) = none :=
  findSplit_pySplitAux_head (Nat.succ_le_succ (Nat.zero_le _))

end PieceLemmas

section StripLemmas

theorem stripLeft_cons_space {c : Char} (h : isSpaceChar c = true) (s : PyStr) :
    stripLeft (c :: s) = stripLeft s := by
  simp [stripLeft, List.dropWhile_cons, h]

theorem stripLeft_cons_nospace {c : Char} (h : isSpaceChar c = false) (s : PyStr) :
    stripLeft (c :: s) = c :: s := by
  simp [stripLeft, List.dropWhile_cons, h]

theorem stripRight_append_space {c : Char} (h : isSpaceChar c = true) (s : PyStr) :
    stripRight (s ++ [c]) = stripRight s := by
  rw [stripRight_eq_rdropWhile, stripRight_eq_rdropWhile]
  exact List.rdropWhile_concat_pos _ _ _ h

theorem stripRight_append_nospace {c : Char} (h : isSpaceChar c = false) (s : PyStr) :
    stripRight (s ++ [c]) = s ++ [c] := by
  rw [stripRight_eq_rdropWhile]
  exact List.rdropWhile_concat_neg _ _ _ (by simp [h])

theorem pyStrip_cons_space {c : Char} (h : isSpaceChar c = true) (s : PyStr) :
    pyStrip (c :: s) = pyStrip s := by
  rw [pyStrip, pyStrip, stripLeft_cons_space h]

theorem pyStrip_append_space {c : Char} (h : isSpaceChar c = true) (s : PyStr) :
    pyStrip (s ++ [c]) = pyStrip s := by
  induction s with
  | nil =>
    rw [List.nil_append]
    rw [pyStrip, pyStrip, stripLeft, stripLeft]
    simp [List.dropWhile_cons, h, stripRight]
  | cons a s' ih =>
    cases ha : isSpaceChar a with
    | true =>
      rw [List.cons_append, pyStrip_cons_space ha, pyStrip_cons_space ha, ih]
    | false =>
      rw [List.cons_append, pyStrip, pyStrip,
        stripLeft_cons_nospace ha, stripLeft_cons_nospace ha,
        ← List.cons_append, stripRight_append_space h]

/-- A string framed by non-space characters is unchanged by stripping. -/
theorem pyStrip_sandwich {c d : Char} (hc : isSpaceChar c = false)
    (hd : isSpaceChar d = false) (xs : PyStr) :
    pyStrip (c :: xs ++ [d]) = c :: xs ++ [d] := by
  rw [pyStrip, List.cons_append, stripLeft_cons_nospace hc, ← List.cons_append,
    stripRight_append_nospace hd, List.cons_append]

/-- The stripped string is an infix of the original. -/
theorem pyStrip_isInfix (s : PyStr) : pyStrip s <:+: s := by
  have h1 : stripLeft s <:+ s := List.dropWhile_suffix _
  have h2 : pyStrip s <+: stripLeft s := by
    rw [pyStrip, stripRight_eq_rdropWhile]
    exact List.rdropWhile_prefix _ _
  exact h2.isInfix.trans h1.isInfix

end StripLemmas

section FenceLemmas

/-- No plain fence in a text means no json fence either. -/
theorem findSplit_json_none {t : PyStr} (h : findSplit (chars "```") t = none) :
    findSplit (chars "```json") t = none := by
  rw [findSplit_eq_none_iff (by decide)]
  intro hinf
  have hpre : chars "```" <+: chars "```json" := ⟨chars "json", by decide⟩
  exact (findSplit_eq_none_iff (by decide)).mp h (hpre.isInfix.trans hinf)

/-- Stripping does not create fence occurrences. -/
theorem findSplit_none_pyStrip {sep t : PyStr} (hsep : sep ≠ [])
    (h : findSplit sep t = none) : findSplit sep (pyStrip t) = none := by
  rw [findSplit_eq_none_iff hsep] at h ⊢
  intro hinf
  exact h (hinf.trans (pyStrip_isInfix t))

/-- A fence-free text passes `stripFences` unchanged. -/
theorem stripFences_of_none {s : PyStr}
    (h : findSplit (chars "```") s = none) : stripFences s = s := by
  rw [stripFences, pySplit_of_none (findSplit_json_none h), pySplit_of_none h]
  norm_num

/-- Fence stripping is idempotent: its image is fence-free or untouched. -/
theorem stripFences_idem (s : PyStr) :
    stripFences (stripFences s) = stripFences s := by
  by_cases h1 : (pySplit (chars "```json") s).length > 1
  · have hr : stripFences s = pyStrip ((pySplit (chars "```")
        ((pySplit (chars "```json") s).getD 1 [])).getD 0 []) := by
      rw [stripFences, if_pos h1]
    rw [hr]
    exact stripFences_of_none
      (findSplit_none_pyStrip (by decide) findSplit_pySplit_head)
  · by_cases h2 : (pySplit (chars "```") s).length > 1
    · cases hf : findSplit (chars "```") s with
      | none => rw [pySplit_of_none hf] at h2; simp at h2
      | some pp =>
        obtain ⟨pre, post⟩ := pp
        have hr : stripFences s = pyStrip ((pySplit (chars "```") s).getD 1 []) := by
          rw [stripFences, if_neg h1, if_pos h2]
        have hlen : 1 ≤ s.length := by
          cases s with
          | nil => rw [findSplit_nil] at hf; exact absurd hf (by simp)
          | cons a b => simp
        have hgetD : (pySplit (chars "```") s).getD 1 [] =
            (pySplitAux s.length (chars "```") post).getD 0 [] := by
          rw [pySplit_of_some hf]; rfl
        rw [hr, hgetD]
        exact stripFences_of_none
          (findSplit_none_pyStrip (by decide) (findSplit_pySplitAux_head hlen))
    · have hr : stripFences s = s := by rw [stripFences, if_neg h1, if_neg h2]
      rw [hr, stripFences, if_neg h1, if_neg h2]

end FenceLemmas

section WrapLemmas

/-- Unfolding of `generate_content_outline` on a successful response. -/
theorem gco_ok (loads : PyStr → Except PyStr JValue) (text : PyStr) :
    generate_content_outline loads (.ok text) =
      (if !(pyStartsWith (stripFences (pyStrip text)) (chars "[")) ||
          !(pyEndsWith (stripFences (pyStrip text)) (chars "]")) then none
       else
         match loads (stripFences (pyStrip text)) with
         | .ok v => some v
         | .error _ => none) := rfl

theorem pyStrip_wrapFence (t : PyStr) : pyStrip (wrapFence t) = wrapFence t := by
  have hL : stripLeft (wrapFence t) = wrapFence t := rfl
  have hbq : isSpaceChar (Char.ofNat 96) = false := by decide
  have hfe : ('\n' :: chars "```") = ('\n' :: chars "``") ++ [Char.ofNat 96] := by
    decide
  have hshape : wrapFence t =
      (chars "```json" ++ ('\n' :: t) ++ ('\n' :: chars "``")) ++ [Char.ofNat 96] := by
    rw [wrapFence, hfe]
    simp [List.append_assoc]
  rw [pyStrip, hL, hshape, stripRight_append_nospace hbq]

/-- For a fence-free text, fence stripping of the wrapped form recovers the
stripped text. -/
theorem stripFences_wrapFence {t : PyStr}
    (h : findSplit (chars "```") t = none) :
    stripFences (wrapFence t) = pyStrip t := by
  have h0 : findSplit (chars "```") ('\n' :: t) = none :=
    findSplit_cons_none (by decide) (by decide) h
  have h1 : findSplit (chars "```json") ('\n' :: t) = none :=
    findSplit_json_none h0
  have h2 : findSplit (chars "```json")
      (('\n' :: t) ++ ('\n' :: chars "```")) = none := by
    rw [findSplit_barrier (by decide) (by decide) h1 (chars "```"),
      show findSplit (chars "```json") (chars "```") = none from by decide]
    rfl
  have h3 : findSplit (chars "```")
      (('\n' :: t) ++ ('\n' :: chars "```")) =
      some (('\n' :: t) ++ ['\n'], []) := by
    rw [findSplit_barrier (by decide) (by decide) h0 (chars "```"),
      show findSplit (chars "```") (chars "```") = some ([], []) from by decide]
    rfl
  have h4 : findSplit (chars "```json") (wrapFence t) =
      some ([], ('\n' :: t) ++ ('\n' :: chars "```")) := by
    rw [wrapFence, List.append_assoc]
    exact findSplit_self_append (by decide) _
  have h5 : pySplit (chars "```json") (wrapFence t) =
      [[], ('\n' :: t) ++ ('\n' :: chars "```")] := by
    rw [pySplit_of_some h4, pySplitAux_of_none h2]
  have h6 : pySplit (chars "```")
      (('\n' :: t) ++ ('\n' :: chars "```")) =
      [('\n' :: t) ++ ['\n'], []] := by
    rw [pySplit_of_some h3, pySplitAux_of_none (findSplit_nil _)]
  rw [stripFences, h5]
  rw [if_pos (by norm_num :
    ([([] : PyStr), ('\n' :: t) ++ ('\n' :: chars "```")]).length > 1)]
  rw [show ([([] : PyStr), ('\n' :: t) ++ ('\n' :: chars "```")]).getD 1 [] =
    ('\n' :: t) ++ ('\n' :: chars "```") from rfl]
  rw [h6]
  rw [show ([('\n' :: t) ++ ['\n'], ([] : PyStr)]).getD 0 [] =
    ('\n' :: t) ++ ['\n'] from rfl]
  rw [pyStrip_append_space (by decide), pyStrip_cons_space (by decide)]

/-- Wrapping a fence-free outline text in a ```json fence does not change
what `generate_content_outline` extracts. -/
theorem gco_wrapFence (loads : PyStr → Except PyStr JValue) {t : PyStr}
    (h : findSplit (chars "```") t = none) :
    generate_content_outline loads (.ok (wrapFence t)) =
      generate_content_outline loads (.ok t) := by
  have h1 : stripFences (pyStrip (wrapFence t)) = pyStrip t := by
    rw [pyStrip_wrapFence, stripFences_wrapFence h]
  have h2 : stripFences (pyStrip t) = pyStrip t :=
    stripFences_of_none (findSplit_none_pyStrip (by decide) h)
  rw [gco_ok, gco_ok, h1, h2]

end WrapLemmas

/-- Claim C2: for every text-generation response, `generate_content_outline`
returns `none` whenever, after fence stripping, the trimmed text does not
both start with a left bracket and end with a right bracket — whatever
`json.loads` would say, so in particular for valid JSON that is not a list —
and it returns the parsed value exactly when the delimiter check passes and
`json.loads` succeeds. -/
theorem claim_c2 (loads : PyStr → Except PyStr JValue) (text : PyStr) :
    (¬ (pyStartsWith (stripFences (pyStrip text)) (chars "[") = true ∧
        pyEndsWith (stripFences (pyStrip text)) (chars "]") = true) →
      generate_content_outline loads (.ok text) = none) ∧
    (pyStartsWith (stripFences (pyStrip text)) (chars "[") = true →
      pyEndsWith (stripFences (pyStrip text)) (chars "]") = true →
      generate_content_outline loads (.ok text) =
        match loads (stripFences (pyStrip text)) with
        | .ok v => some v
        | .error _ => none) := by
  constructor
  · intro h
    have hc : (!(pyStartsWith (stripFences (pyStrip text)) (chars "[")) ||
        !(pyEndsWith (stripFences (pyStrip text)) (chars "]"))) = true := by
      cases hs : pyStartsWith (stripFences (pyStrip text)) (chars "[") <;>
        cases he : pyEndsWith (stripFences (pyStrip text)) (chars "]") <;>
        simp_all
    rw [gco_ok, if_pos hc]
  · intro hs he
    have hc : (!(pyStartsWith (stripFences (pyStrip text)) (chars "[")) ||
        !(pyEndsWith (stripFences (pyStrip text)) (chars "]"))) = false := by
      rw [hs, he]; rfl
    rw [gco_ok, if_neg (by rw [hc]; exact Bool.false_ne_true)]

/-- Witness for C2 at the response `{"a":1}`: valid JSON, accepted by the
modelled `json.loads`, still rejected because the array-boundary check runs
first. -/
theorem claim_c2_witness :
    generate_content_outline loadsSample (.ok (chars "\x7b\"a\":1\x7d")) = none :=
  (claim_c2 loadsSample (chars "\x7b\"a\":1\x7d")).1 (by decide)

/-- Counterexample to C6 as stated: for the outline text `tBad` — a valid
JSON array holding a fence inside a string — the wrapped response parses to
`none` while the unwrapped response parses to the array `[2]` extracted
from between the inner fences, so wrapping is not neutral for every text. -/
theorem claim_c6_counterexample :
    generate_content_outline loadsSample (.ok (wrapFence tBad)) = none ∧
    generate_content_outline loadsSample (.ok tBad) =
      some (JValue.jarr [JValue.jnum 2]) :=
  ⟨rfl, rfl⟩

/-- Claim C6 (amended): for every outline text `t` free of the plain fence
marker, `generate_content_outline` extracts the same result from the
```json-wrapped response as from the unwrapped one (hence the same records
in the same order), and fence-stripping is idempotent on every text. -/
theorem claim_c6_amended (loads : PyStr → Except PyStr JValue) (t : PyStr)
    (h : findSplit (chars "```") t = none) :
    generate_content_outline loads (.ok (wrapFence t)) =
      generate_content_outline loads (.ok t) ∧
    ∀ s : PyStr, stripFences (stripFences s) = stripFences s :=
  ⟨gco_wrapFence loads h, stripFences_idem⟩

/-- Witness for the amended C6 at the fence-free outline text `[2]`. -/
theorem claim_c6_witness :
    generate_content_outline loadsSample (.ok (wrapFence (chars "[2]"))) =
      generate_content_outline loadsSample (.ok (chars "[2]")) :=
  (claim_c6_amended loadsSample (chars "[2]") (by decide)).1

/-- Claim C8: whenever the vision-model request fails,
`generate_image_description` returns the fixed fallback phrase instead of
propagating the error. -/
theorem claim_c8 (e : PyStr) :
    generate_image_description (.error e) =
      chars "abstract technology background" := rfl

/-- Claim C7: `download_image` returns `none` exactly when the API key is
missing (or empty, hence falsy), an HTTP call — the search or the image
download — errors, or the search response's `photos` list is absent or
empty; otherwise it returns the save path it wrote to.  The empty-photos
case is decided by the guard before any indexing. -/
theorem claim_c7 (env : PexelsEnv) (query save_path : PyStr) :
    (download_image env query save_path = none ↔
      (env.apiKey = none ∨ env.apiKey = some []) ∨
      (∃ e, env.search query = .error e) ∨
      (∃ d, env.search query = .ok d ∧
        (d.photos = none ∨ d.photos = some [])) ∨
      (∃ d p ps e, env.search query = .ok d ∧ d.photos = some (p :: ps) ∧
        env.fetchImage p.src_original = .error e)) ∧
    (download_image env query save_path = none ∨
      download_image env query save_path = some save_path) := by
  obtain ⟨key?, searchF, fetchF⟩ := env
  cases key? with
  | none => simp [download_image]
  | some key =>
    by_cases hkey : key = []
    · subst hkey
      simp [download_image]
    · cases hs : searchF query with
      | error e => simp [download_image, hkey, hs]
      | ok data =>
        obtain ⟨photos?⟩ := data
        cases photos? with
        | none => simp [download_image, hkey, hs]
        | some photos =>
          cases photos with
          | nil => simp [download_image, hkey, hs]
          | cons p ps =>
            cases hf : fetchF p.src_original with
            | error e => simp [download_image, hkey, hs, hf]
            | ok bytes => simp [download_image, hkey, hs, hf]

section LowerLemmas

theorem lowerChar_idem (c : Char) : lowerChar (lowerChar c) = lowerChar c := by
  by_cases h1 : c = 'A'
  · subst h1; decide
  by_cases h2 : c = 'B'
  · subst h2; decide
  by_cases h3 : c = 'C'
  · subst h3; decide
  by_cases h4 : c = 'D'
  · subst h4; decide
  by_cases h5 : c = 'E'
  · subst h5; decide
  by_cases h6 : c = 'F'
  · subst h6; decide
  by_cases h7 : c = 'G'
  · subst h7; decide
  by_cases h8 : c = 'H'
  · subst h8; decide
  by_cases h9 : c = 'I'
  · subst h9; decide
  by_cases h10 : c = 'J'
  · subst h10; decide
  by_cases h11 : c = 'K'
  · subst h11; decide
  by_cases h12 : c = 'L'
  · subst h12; decide
  by_cases h13 : c = 'M'
  · subst h13; decide
  by_cases h14 : c = 'N'
  · subst h14; decide
  by_cases h15 : c = 'O'
  · subst h15; decide
  by_cases h16 : c = 'P'
  · subst h16; decide
  by_cases h17 : c = 'Q'
  · subst h17; decide
  by_cases h18 : c = 'R'
  · subst h18; decide
  by_cases h19 : c = 'S'
  · subst h19; decide
  by_cases h20 : c = 'T'
  · subst h20; decide
  by_cases h21 : c = 'U'
  · subst h21; decide
  by_cases h22 : c = 'V'
  · subst h22; decide
  by_cases h23 : c = 'W'
  · subst h23; decide
  by_cases h24 : c = 'X'
  · subst h24; decide
  by_cases h25 : c = 'Y'
  · subst h25; decide
  by_cases h26 : c = 'Z'
  · subst h26; decide
  have hself : lowerChar c = c := by
    rw [lowerChar]
    simp [h1, h2, h3, h4, h5, h6, h7, h8, h9, h10, h11, h12, h13, h14, h15,
      h16, h17, h18, h19, h20, h21, h22, h23, h24, h25, h26]
  rw [hself]
  exact hself

theorem pyLower_idem (s : PyStr) : pyLower (pyLower s) = pyLower s := by
  induction s with
  | nil => rfl
  | cons c rest ih =>
    rw [pyLower, pyLower, List.map_cons, List.map_cons, lowerChar_idem]
    rw [pyLower, pyLower] at ih
    rw [ih]

end LowerLemmas

/-- Claim C1: for every non-empty outline of full SlideSpecs, the build
succeeds: the deck is the title slide rendered from the first spec by
`create_title_slide` followed by exactly one rendered slide per remaining
spec in outline order, the deck length equals the outline length, and the
first slide does not depend on the first spec's declared `slide_type`. -/
theorem claim_c1 (env : DeckEnv) (output_file : PyStr) (first : SlideDict)
    (rest : List SlideDict)
    (hfull : ∀ d ∈ first :: rest, d.isFull) :
    generate_presentation env (some (first :: rest)) output_file =
      .ok (create_title_slide (first.title.getD []) (first.content.getD []) ::
             (rest.map (render_slide env)).map Prod.fst,
           (rest.map (render_slide env)).map Prod.snd, some output_file) ∧
    (create_title_slide (first.title.getD []) (first.content.getD []) ::
       (rest.map (render_slide env)).map Prod.fst).length =
      (first :: rest).length ∧
    ∀ st, generate_presentation env
        (some (SlideDict.mk first.title first.content st :: rest)) output_file =
      generate_presentation env (some (first :: rest)) output_file := by
  obtain ⟨t, ht⟩ := Option.isSome_iff_exists.mp
    (hfull first (List.mem_cons_self _ _)).1
  refine ⟨?_, ?_, ?_⟩
  · simp [generate_presentation, ht]
  · simp
  · intro st
    simp [generate_presentation, ht]

/-- Witness for C1 at the Animal Kingdom outline under the offline
environment. -/
theorem claim_c1_witness :
    generate_presentation envOffline (some (animal1 :: [animal2, animal3]))
      (chars "deck.pptx") =
      .ok (create_title_slide (animal1.title.getD [])
             (animal1.content.getD []) ::
             ([animal2, animal3].map (render_slide envOffline)).map Prod.fst,
           ([animal2, animal3].map (render_slide envOffline)).map Prod.snd,
           some (chars "deck.pptx")) :=
  (claim_c1 envOffline (chars "deck.pptx") animal1 [animal2, animal3]
    (by decide)).1

section RawRefinement

/-- On string title and subtitle values the raw title renderer agrees with
the string one. -/
theorem create_title_slide_val_str (t c : PyStr) :
    create_title_slide_val (PyVal.vstr t) (PyVal.vstr c) =
      .ok (create_title_slide t c) := by
  cases c with
  | nil => rfl
  | cons a as => rfl

/-- On string values the raw content renderer agrees with the string one. -/
theorem create_content_slide_val_str (env : DeckEnv) (t c : PyStr) (b : Bool) :
    create_content_slide_val env (PyVal.vstr t) (PyVal.vstr c) b =
      .ok (create_content_slide env t c b) := by
  cases b <;> rfl

/-- On string values the raw image renderer agrees with the string one. -/
theorem create_image_slide_val_str (env : DeckEnv) (t c q : PyStr) :
    create_image_slide_val env (PyVal.vstr t) (PyVal.vstr c) q =
      .ok (create_image_slide env t c q) := by
  cases c with
  | nil => rfl
  | cons a as => rfl

/-- On an all-string dict the raw loop body agrees with the string one. -/
theorem render_slide_val_strings (env : DeckEnv) (t c st : PyStr) :
    render_slide_val env (RawSlideDict.mk (some (PyVal.vstr t))
        (some (PyVal.vstr c)) (some (PyVal.vstr st))) =
      .ok (render_slide env (SlideDict.mk (some t) (some c) (some st))) := by
  rw [render_slide_val, render_slide]
  by_cases h1 : pyLower st = chars "title"
  · simp [PyVal.lower, h1, create_title_slide_val_str, Except.map]
  · by_cases h2 : pyLower st = chars "image"
    · simp [PyVal.lower, PyVal.pyToStr, h1, h2, create_image_slide_val_str]
      rfl
    · by_cases h3 : pyLower st = chars "conclusion"
      · simp [PyVal.lower, h1, h2, h3, create_content_slide_val_str]
        rfl
      · simp [PyVal.lower, h1, h2, h3, create_content_slide_val_str]

/-- On a string-valued dict the raw loop body agrees with the string one on
the dict's string view. -/
theorem render_slide_val_str (env : DeckEnv) (d : RawSlideDict)
    (h : d.stringValued = true) :
    render_slide_val env d = .ok (render_slide env d.toSlideDict) := by
  obtain ⟨t?, c?, st?⟩ := d
  rcases t? with _ | tv <;> rcases c? with _ | cv <;> rcases st? with _ | sv
  · exact render_slide_val_strings env [] [] (chars "content")
  · cases sv with
    | vstr s => exact render_slide_val_strings env [] [] s
    | vnum n => simp [RawSlideDict.stringValued, PyVal.isStr] at h
    | vbool b => simp [RawSlideDict.stringValued, PyVal.isStr] at h
    | vnull => simp [RawSlideDict.stringValued, PyVal.isStr] at h
  · cases cv with
    | vstr s => exact render_slide_val_strings env [] s (chars "content")
    | vnum n => simp [RawSlideDict.stringValued, PyVal.isStr] at h
    | vbool b => simp [RawSlideDict.stringValued, PyVal.isStr] at h
    | vnull => simp [RawSlideDict.stringValued, PyVal.isStr] at h
  · cases cv with
    | vstr s =>
      cases sv with
      | vstr s2 => exact render_slide_val_strings env [] s s2
      | vnum n => simp [RawSlideDict.stringValued, PyVal.isStr] at h
      | vbool b => simp [RawSlideDict.stringValued, PyVal.isStr] at h
      | vnull => simp [RawSlideDict.stringValued, PyVal.isStr] at h
    | vnum n => simp [RawSlideDict.stringValued, PyVal.isStr] at h
    | vbool b => simp [RawSlideDict.stringValued, PyVal.isStr] at h
    | vnull => simp [RawSlideDict.stringValued, PyVal.isStr] at h
  · cases tv with
    | vstr s => exact render_slide_val_strings env s [] (chars "content")
    | vnum n => simp [RawSlideDict.stringValued, PyVal.isStr] at h
    | vbool b => simp [RawSlideDict.stringValued, PyVal.isStr] at h
    | vnull => simp [RawSlideDict.stringValued, PyVal.isStr] at h
  · cases tv with
    | vstr s =>
      cases sv with
      | vstr s2 => exact render_slide_val_strings env s [] s2
      | vnum n => simp [RawSlideDict.stringValued, PyVal.isStr] at h
      | vbool b => simp [RawSlideDict.stringValued, PyVal.isStr] at h
      | vnull => simp [RawSlideDict.stringValued, PyVal.isStr] at h
    | vnum n => simp [RawSlideDict.stringValued, PyVal.isStr] at h
    | vbool b => simp [RawSlideDict.stringValued, PyVal.isStr] at h
    | vnull => simp [RawSlideDict.stringValued, PyVal.isStr] at h
  · cases tv with
    | vstr s =>
      cases cv with
      | vstr s2 => exact render_slide_val_strings env s s2 (chars "content")
      | vnum n => simp [RawSlideDict.stringValued, PyVal.isStr] at h
      | vbool b => simp [RawSlideDict.stringValued, PyVal.isStr] at h
      | vnull => simp [RawSlideDict.stringValued, PyVal.isStr] at h
    | vnum n => simp [RawSlideDict.stringValued, PyVal.isStr] at h
    | vbool b => simp [RawSlideDict.stringValued, PyVal.isStr] at h
    | vnull => simp [RawSlideDict.stringValued, PyVal.isStr] at h
  · cases tv with
    | vstr s =>
      cases cv with
      | vstr s2 =>
        cases sv with
        | vstr s3 => exact render_slide_val_strings env s s2 s3
        | vnum n => simp [RawSlideDict.stringValued, PyVal.isStr] at h
        | vbool b => simp [RawSlideDict.stringValued, PyVal.isStr] at h
        | vnull => simp [RawSlideDict.stringValued, PyVal.isStr] at h
      | vnum n => simp [RawSlideDict.stringValued, PyVal.isStr] at h
      | vbool b => simp [RawSlideDict.stringValued, PyVal.isStr] at h
      | vnull => simp [RawSlideDict.stringValued, PyVal.isStr] at h
    | vnum n => simp [RawSlideDict.stringValued, PyVal.isStr] at h
    | vbool b => simp [RawSlideDict.stringValued, PyVal.isStr] at h
    | vnull => simp [RawSlideDict.stringValued, PyVal.isStr] at h

/-- On an all-string-valued tail the raw loop agrees with mapping the
string loop body over the string views. -/
theorem renderAll_str (env : DeckEnv) (l : List RawSlideDict)
    (h : ∀ d ∈ l, d.stringValued = true) :
    renderAll env l =
      .ok (l.map (fun d => render_slide env d.toSlideDict)) := by
  induction l with
  | nil => rfl
  | cons d ds ih =>
    rw [renderAll, render_slide_val_str env d (h d (List.mem_cons_self _ _)),
      ih (fun x hx => h x (List.mem_cons_of_mem _ hx))]
    rfl

end RawRefinement

/-- Counterexample to C3 as stated: two accepted (non-empty) outlines of
dicts on which the build does not run to completion — a first dict without
a `'title'` key raises KeyError at `outline[0]['title']` (src/app.py line
192), and a non-first dict whose `slide_type` holds the number 1 (a value
`json.loads` can deliver) raises AttributeError at the `.lower()` call
(line 196). -/
theorem claim_c3_counterexample :
    generate_presentation_val envOffline (some [RawSlideDict.mk none none none])
      (chars "deck.pptx") = .error (chars "KeyError: title") ∧
    generate_presentation_val envOffline
      (some [RawSlideDict.mk (some (PyVal.vstr (chars "T"))) none none,
             RawSlideDict.mk none none (some (PyVal.vnum 1))])
      (chars "deck.pptx") = .error (chars "AttributeError: lower") :=
  ⟨rfl, rfl⟩

/-- Claim C3 (amended): for every outline passing the non-empty check whose
elements are dicts with string values for their present keys and whose
first dict has a `'title'` key, the build runs to completion and saves the
file under every environment — so image-description or image-download
failures only degrade the output — whatever keys the dicts lack. -/
theorem claim_c3_amended (env : DeckEnv) (output_file t : PyStr)
    (first : RawSlideDict) (rest : List RawSlideDict)
    (ht : first.title = some (PyVal.vstr t))
    (hstr : ∀ d ∈ first :: rest, d.stringValued = true) :
    ∃ deck evs, generate_presentation_val env (some (first :: rest))
      output_file = .ok (deck, evs, some output_file) := by
  have hfirst := hstr first (List.mem_cons_self _ _)
  obtain ⟨c, hc⟩ : ∃ c, first.content.getD (PyVal.vstr []) = PyVal.vstr c := by
    cases hcc : first.content with
    | none => exact ⟨[], rfl⟩
    | some v =>
      cases v with
      | vstr s => exact ⟨s, rfl⟩
      | vnum n => rw [RawSlideDict.stringValued, hcc] at hfirst; simp [PyVal.isStr] at hfirst
      | vbool b => rw [RawSlideDict.stringValued, hcc] at hfirst; simp [PyVal.isStr] at hfirst
      | vnull => rw [RawSlideDict.stringValued, hcc] at hfirst; simp [PyVal.isStr] at hfirst
  refine ⟨create_title_slide t c ::
      (rest.map (fun d => render_slide env d.toSlideDict)).map Prod.fst,
    (rest.map (fun d => render_slide env d.toSlideDict)).map Prod.snd, ?_⟩
  have h1 : create_title_slide_val (PyVal.vstr t) (PyVal.vstr c) =
      .ok (create_title_slide t c) := create_title_slide_val_str t c
  have h2 : renderAll env rest =
      .ok (rest.map (fun d => render_slide env d.toSlideDict)) :=
    renderAll_str env rest (fun d hd => hstr d (List.mem_cons_of_mem _ hd))
  simp [generate_presentation_val, ht, hc, h1, h2]

/-- Witness for the amended C3: a first dict holding only a title and a
second dict with no keys at all still build and save offline. -/
theorem claim_c3_witness :
    ∃ deck evs, generate_presentation_val envOffline
      (some [RawSlideDict.mk (some (PyVal.vstr (chars "T"))) none none,
             RawSlideDict.mk none none none])
      (chars "deck.pptx") = .ok (deck, evs, some (chars "deck.pptx")) :=
  claim_c3_amended envOffline (chars "deck.pptx") (chars "T")
    (RawSlideDict.mk (some (PyVal.vstr (chars "T"))) none none)
    [RawSlideDict.mk none none none] rfl (by decide)

/-- Claim C4: a non-first spec whose `slide_type` lowers to none of
`title`, `image`, `conclusion` — e.g. `summary` — is dispatched to
`create_content_slide` with `include_image` set, exactly like a spec
declaring `content`. -/
theorem claim_c4 (env : DeckEnv) (d : SlideDict) (st : PyStr)
    (hst : d.slide_type = some st)
    (h1 : pyLower st ≠ chars "title")
    (h2 : pyLower st ≠ chars "image")
    (h3 : pyLower st ≠ chars "conclusion") :
    render_slide env d =
      create_content_slide env (d.title.getD []) (d.content.getD []) true ∧
    render_slide env d =
      render_slide env (SlideDict.mk d.title d.content (some (chars "content"))) := by
  have hc1 : pyLower (chars "content") ≠ chars "title" := by decide
  have hc2 : pyLower (chars "content") ≠ chars "image" := by decide
  have hc3 : pyLower (chars "content") ≠ chars "conclusion" := by decide
  constructor
  · rw [render_slide]
    simp [hst, h1, h2, h3]
  · rw [render_slide, render_slide]
    simp [hst, h1, h2, h3, hc1, hc2, hc3]

/-- Witness for C4 at the unrecognized type `summary`. -/
theorem claim_c4_witness :
    render_slide envOffline (SlideDict.mk (some (chars "T")) (some (chars "C"))
        (some (chars "summary"))) =
      create_content_slide envOffline (chars "T") (chars "C") true :=
  (claim_c4 envOffline
    (SlideDict.mk (some (chars "T")) (some (chars "C"))
      (some (chars "summary")))
    (chars "summary") rfl (by decide) (by decide) (by decide)).1

/-- Claim C5: the Animal Kingdom end-to-end scenario — under every
environment the deck has exactly 3 slides; slide 2 attempts an image fetch
(an image-description request followed by a download attempt for the
resulting query), while slide 3 attempts none. -/
theorem claim_c5 (env : DeckEnv) (output_file : PyStr) :
    ∃ deck,
      generate_presentation env (some outlineAnimal) output_file =
        .ok (deck,
          [[Event.descRequest (chars "- Warm blooded\n- Fur"),
            Event.imgDownload (generate_image_description
              (env.vision (chars "- Warm blooded\n- Fur")))],
           []],
          some output_file) ∧
      deck.length = 3 :=
  ⟨_, rfl, rfl⟩

/-- Claim C9: slide-type dispatch lower-cases the declared type before
comparing, so a spec is rendered exactly as the same spec with its
`slide_type` lower-cased. -/
theorem claim_c9 (env : DeckEnv) (d : SlideDict) (st : PyStr)
    (hst : d.slide_type = some st) :
    render_slide env d =
      render_slide env (SlideDict.mk d.title d.content (some (pyLower st))) := by
  rw [render_slide, render_slide]
  simp [hst, pyLower_idem]

/-- Witness for C9 at the declared type `Title`. -/
theorem claim_c9_witness :
    render_slide envOffline (SlideDict.mk (some (chars "T")) (some (chars "C"))
        (some (chars "Title"))) =
      render_slide envOffline (SlideDict.mk (some (chars "T")) (some (chars "C"))
        (some (pyLower (chars "Title")))) :=
  claim_c9 envOffline
    (SlideDict.mk (some (chars "T")) (some (chars "C")) (some (chars "Title")))
    (chars "Title") rfl

/-- Claim C10: for non-first specs a missing `slide_type` defaults to
`content` (the content-with-image renderer) and missing `title` or
`content` default to the empty string; only the first spec needs a
`'title'` key — the build errors exactly when the first spec lacks it. -/
theorem claim_c10 (env : DeckEnv) (title? content? : Option PyStr)
    (st : Option PyStr) (output_file : PyStr) (first : SlideDict)
    (rest : List SlideDict) :
    render_slide env (SlideDict.mk title? content? none) =
      render_slide env (SlideDict.mk title? content? (some (chars "content"))) ∧
    render_slide env (SlideDict.mk none content? st) =
      render_slide env (SlideDict.mk (some []) content? st) ∧
    render_slide env (SlideDict.mk title? none st) =
      render_slide env (SlideDict.mk title? (some []) st) ∧
    ((∃ e, generate_presentation env (some (first :: rest)) output_file =
        .error e) ↔ first.title = none) := by
  refine ⟨rfl, rfl, rfl, ?_⟩
  cases ht : first.title with
  | none =>
    constructor
    · intro _; rfl
    · intro _
      exact ⟨chars "KeyError: title", by simp [generate_presentation, ht]⟩
  | some t =>
    constructor
    · rintro ⟨e, he⟩
      simp [generate_presentation, ht] at he
    · intro h
      simp [ht] at h
